import Mathlib

/-!
Verification of the rustifact value-to-source serialization and declaration-emission
engine, shallowly embedded from the Rust sources (`src/lib.rs`, `src/tokens.rs`,
`src/phf/map.rs`, `src/phf/ordered_map.rs`, `build.rs`).

Token streams (`proc_macro2::TokenStream`) are modelled as lists of tokens; the external
`syn` / `prettyplease` parsers, and the external `phf_codegen` hashing algorithm, are
abstract parameters (they are external crates, not part of this repository).
-/

namespace Rustifact

/-- Group delimiters of `proc_macro2` token groups. -/
inductive Delim where
  | paren
  | bracket
  | brace
deriving DecidableEq, Repr

/-- A single token of a `proc_macro2::TokenStream`: a literal, an identifier,
punctuation (possibly multi-character, e.g. `::`), or a delimited group. -/
inductive Tok where
  | lit (s : String)
  | ident (s : String)
  | punct (s : String)
  | group (d : Delim) (ts : List Tok)
deriving Repr

mutual

/-- Structural equality test on tokens (for decidable equality). -/
def tokBeq : Tok → Tok → Bool
  | .lit a, .lit b => a == b
  | .ident a, .ident b => a == b
  | .punct a, .punct b => a == b
  | .group d ts, .group e us => d == e && tokListBeq ts us
  | _, _ => false

/-- Structural equality test on token lists. -/
def tokListBeq : List Tok → List Tok → Bool
  | [], [] => true
  | a :: as, b :: bs => tokBeq a b && tokListBeq as bs
  | _, _ => false

end

mutual

theorem tokBeq_iff : ∀ a b : Tok, tokBeq a b = true ↔ a = b
  | .lit a, .lit b => by simp [tokBeq]
  | .lit _, .ident _ => by simp [tokBeq]
  | .lit _, .punct _ => by simp [tokBeq]
  | .lit _, .group _ _ => by simp [tokBeq]
  | .ident _, .lit _ => by simp [tokBeq]
  | .ident a, .ident b => by simp [tokBeq]
  | .ident _, .punct _ => by simp [tokBeq]
  | .ident _, .group _ _ => by simp [tokBeq]
  | .punct _, .lit _ => by simp [tokBeq]
  | .punct _, .ident _ => by simp [tokBeq]
  | .punct a, .punct b => by simp [tokBeq]
  | .punct _, .group _ _ => by simp [tokBeq]
  | .group _ _, .lit _ => by simp [tokBeq]
  | .group _ _, .ident _ => by simp [tokBeq]
  | .group _ _, .punct _ => by simp [tokBeq]
  | .group d ts, .group e us => by
      simp [tokBeq, tokListBeq_iff ts us]

theorem tokListBeq_iff : ∀ as bs : List Tok, tokListBeq as bs = true ↔ as = bs
  | [], [] => by simp [tokListBeq]
  | [], _ :: _ => by simp [tokListBeq]
  | _ :: _, [] => by simp [tokListBeq]
  | a :: as, b :: bs => by
      simp [tokListBeq, tokBeq_iff a b, tokListBeq_iff as bs]

end

instance : DecidableEq Tok := fun a b =>
  decidable_of_iff (tokBeq a b = true) (tokBeq_iff a b)

def delimOpen : Delim → String
  | .paren => "("
  | .bracket => "["
  | .brace => "\x7b"

def delimClose : Delim → String
  | .paren => ")"
  | .bracket => "]"
  | .brace => "\x7d"

mutual

/-- Rendering of one token to text (the analogue of `TokenStream::to_string`;
the exact inter-token spacing of `proc_macro2` is an external-crate detail,
modelled as single spaces). -/
def renderTok : Tok → String
  | .lit s => s
  | .ident s => s
  | .punct s => s
  | .group d ts => delimOpen d ++ " " ++ renderToks ts ++ " " ++ delimClose d

/-- Rendering of a token stream to text, tokens separated by single spaces. -/
def renderToks : List Tok → String
  | [] => ""
  | [t] => renderTok t
  | t :: ts => renderTok t ++ " " ++ renderToks ts

end

/-- The comma-terminated element concatenation used by `to_toks_slice` and the
`__get_tokens_…` macros: each element stream is followed by a `,` token. -/
def commaTerminated (xss : List (List Tok)) : List Tok :=
  (xss.map (fun ts => ts ++ [Tok.punct ","])).flatten

/-- The comma-separated concatenation produced by `quote!`'s `$(...),+` repetition
(used by the tuple implementations): commas between elements, no trailing comma. -/
def commaSep (xss : List (List Tok)) : List Tok :=
  List.intercalate [Tok.punct ","] xss

/-- The `Value` data model: everything `src/tokens.rs` provides a `ToTokenStream`
implementation for. The twelve integer impls (generated by the `primitive!` macro,
each appending a suffixed literal) are indexed by their suffix string; floating-point
values are represented by their literal digit text (floating point itself is not
modelled, and no claim depends on it). `ref` / `mutRef` model the `&T` / `&mut T`
impls, `slice` the `&[T]` impl, `array` the `[T; N]` impl. -/
inductive Value where
  | intV (n : Int) (suffix : String)
  | floatV (digits : String) (suffix : String)
  | charV (c : Char)
  | strV (s : String)
  | stringV (s : String)
  | boolV (b : Bool)
  | ref (v : Value)
  | mutRef (v : Value)
  | slice (vs : List Value)
  | array (vs : List Value)
  | vecV (vs : List Value)
  | optionV (o : Option Value)
  | tuple (vs : List Value)
deriving Repr

/-- Rendering of an integer literal with type suffix (`Literal::i32_suffixed` etc.,
external `proc_macro2` rendering). -/
def intLitStr (n : Int) (suffix : String) : String := toString n ++ suffix

/-- Rendering of a character literal (`Literal::character`; escaping is an
external-crate detail not modelled). -/
def charLitStr (c : Char) : String := "\x27" ++ String.singleton c ++ "\x27"

/-- Rendering of a string literal (`Literal::string` and `quote! \x7b #self \x7d` on
`String`; escaping is an external-crate detail not modelled). -/
def strLitStr (s : String) : String := "\"" ++ s ++ "\""

/-- `to_toks_slice` from `src/tokens.rs`: elements comma-terminated inside one
bracket group. Shared by the `&[T]` and `[T; N]` implementations. -/
def toToksSlice (xss : List (List Tok)) : List Tok :=
  [Tok.group .bracket (commaTerminated xss)]

mutual

/-- The expression serializer: `ToTokenStream::to_toks` / `to_tok_stream` from
`src/tokens.rs`, per implementation:
integer/float/char/str scalars append a literal token; `bool` appends an identifier;
`&T` and `&mut T` delegate to the referent; `&[T]` and `[T; N]` go through
`to_toks_slice` (bracket group of comma-terminated elements); `Vec<T>` wraps the
bracket group in `vec!`; `Option<T>` becomes `Some(…)` or `None`; tuples become a
parenthesized comma-separated list of their slots (the uniform `build_tuple_trait!`
body; which arities actually have an impl is tracked by `hasInstance`). -/
def toToks : Value → List Tok
  | .intV n suffix => [Tok.lit (intLitStr n suffix)]
  | .floatV digits suffix => [Tok.lit (digits ++ suffix)]
  | .charV c => [Tok.lit (charLitStr c)]
  | .strV s => [Tok.lit (strLitStr s)]
  | .stringV s => [Tok.lit (strLitStr s)]
  | .boolV b => [Tok.ident (if b then "true" else "false")]
  | .ref v => toToks v
  | .mutRef v => toToks v
  | .slice vs => toToksSlice (toToksList vs)
  | .array vs => toToksSlice (toToksList vs)
  | .vecV vs => [Tok.ident "vec", Tok.punct "!",
      Tok.group .bracket (commaTerminated (toToksList vs))]
  | .optionV (some v) => [Tok.ident "Some", Tok.group .paren (toToks v)]
  | .optionV none => [Tok.ident "None"]
  | .tuple vs => [Tok.group .paren (commaSep (toToksList vs))]

/-- Serialization of each element of a list in order (the element loops of
`to_toks_slice`, `Vec`, and the tuple destructuring). -/
def toToksList : List Value → List (List Tok)
  | [] => []
  | v :: vs => toToks v :: toToksList vs

end

mutual

/-- Which values have a `ToTokenStream` implementation in `src/tokens.rs`:
all scalar impls exist; references/containers/options require the element impl;
tuple impls exist exactly for arities 2 through 12 (the eleven `impl` blocks). -/
def hasInstance : Value → Bool
  | .intV _ _ => true
  | .floatV _ _ => true
  | .charV _ => true
  | .strV _ => true
  | .stringV _ => true
  | .boolV _ => true
  | .ref v => hasInstance v
  | .mutRef v => hasInstance v
  | .slice vs => hasInstanceList vs
  | .array vs => hasInstanceList vs
  | .vecV vs => hasInstanceList vs
  | .optionV (some v) => hasInstance v
  | .optionV none => true
  | .tuple vs =>
      decide (2 ≤ vs.length) && decide (vs.length ≤ 12) && hasInstanceList vs

def hasInstanceList : List Value → Bool
  | [] => true
  | v :: vs => hasInstance v && hasInstanceList vs

end

/-- The container view used by the dimensional macros: `$arr.len()`, `$arr[0]` and
`for i in $arr` on an array, slice or `Vec` (references auto-dereference).
`none` means the Rust expression would not typecheck (no `.len()`), which is
unreachable for well-typed macro invocations. -/
def elems? : Value → Option (List Value)
  | .array vs => some vs
  | .slice vs => some vs
  | .vecV vs => some vs
  | .ref v => elems? v
  | .mutRef v => elems? v
  | _ => none

/-- `$data.len()` as used by `__array_type_impl`. -/
def lenOf? (v : Value) : Option Nat := (elems? v).map List.length

/-- Textual type signatures (`TypeSignature` of the data model): a bare element
type, a fixed-size array level `[inner; len]`, or a growable level `Vec<inner>`. -/
inductive Ty where
  | base (name : String)
  | arr (inner : Ty) (len : Nat)
  | vec (inner : Ty)
deriving DecidableEq, Repr

/-- Token rendering of a type signature, as produced by the `quote!` fragments of
`__array_type_impl` and `__vector_type_impl`. -/
def tyToks : Ty → List Tok
  | .base n => [Tok.ident n]
  | .arr inner len =>
      [Tok.group .bracket (tyToks inner ++ [Tok.punct ";", Tok.lit (toString len)])]
  | .vec inner => [Tok.ident "Vec", Tok.punct "<"] ++ tyToks inner ++ [Tok.punct ">"]

/-- Number of fixed-size array wrappers around a type signature. -/
def arrDepth : Ty → Nat
  | .arr inner _ => arrDepth inner + 1
  | _ => 0

/-!
The counting macros: `build.rs` generates, for each `m` of
`__array_type`, `__vector_type`, `__assert_dim`, `__get_tokens_array`,
`__get_tokens_vector_fn`, an entry `(d, args…) => m_impl!(d - 1, args…)` for every
literal `d` in `1..=16` (`NUM_DIMS = 16`), so a user-facing dimension `D` runs the
`_impl` macro at depth `D - 1`, and a dimension outside `1..=16` fails to match
(a generation-time compile error, modelled as `none`).
-/

/-- `__assert_dim_impl` from `src/lib.rs`: depth 0 checks nothing; at positive depth
it panics (`false`) when `$arr.len() == 0` and otherwise recurses one depth lower on
`$arr[0]` (via `__assert_dim!`, which subtracts one). The non-container branch is a
Rust compile error for ill-typed invocations, never a runtime outcome; it is mapped
to `true` here and is unreachable for well-typed samples. -/
def assertDimImpl : Nat → Value → Bool
  | 0, _ => true
  | d + 1, v =>
      match elems? v with
      | some [] => false
      | some (x :: _) => assertDimImpl d x
      | none => true

/-- The user-facing `__assert_dim!(D, sample)` (counting macro):
`some b` with `b = false` meaning the "too shallow" panic fires; `none` when `D` is
outside the generated `1..=16` entries. -/
def assertDim (D : Nat) (v : Value) : Option Bool :=
  if 1 ≤ D ∧ D ≤ 16 then some (assertDimImpl (D - 1) v) else none

/-- `__array_type_impl` from `src/lib.rs`: at depth 0 the signature is
`[$t; $data.len()]`; at positive depth it recurses one depth lower on `$data[0]`
and wraps the inner signature as `[inner; $data.len()]`. `none` models the panics
and type errors of indexing an empty or non-container sample. -/
def arrayTypeImpl (t : Ty) : Nat → Value → Option Ty
  | 0, v => (lenOf? v).map fun n => Ty.arr t n
  | d + 1, v =>
      match elems? v with
      | some (x :: rest) =>
          (arrayTypeImpl t d x).map fun inner => Ty.arr inner (rest.length + 1)
      | _ => none

/-- The user-facing `__array_type!(D, t, sample)` (counting macro). -/
def arrayType (t : Ty) (D : Nat) (v : Value) : Option Ty :=
  if 1 ≤ D ∧ D ≤ 16 then arrayTypeImpl t (D - 1) v else none

/-- `__vector_type_impl` from `src/lib.rs`: depth 0 is `Vec<$t>`; positive depth
wraps one more `Vec<…>` (the sample is not inspected). -/
def vectorTypeImpl (t : Ty) : Nat → Ty
  | 0 => Ty.vec t
  | d + 1 => Ty.vec (vectorTypeImpl t d)

/-- The user-facing `__vector_type!(D, t, sample)` (counting macro). -/
def vectorType (t : Ty) (D : Nat) : Option Ty :=
  if 1 ≤ D ∧ D ≤ 16 then some (vectorTypeImpl t (D - 1)) else none

/-- Modelled from the spec: `__get_tokens_array_multi` is invoked by
`__get_tokens_array_impl` at positive depth but its definition is missing from the
repository (it is neither in `src/lib.rs` nor generated by `build.rs`). Per spec
§4.1, a fixed-size sequence serializes each element in original order with the
supplied per-dimension serializer, comma-separated inside one bracket wrapping. -/
def getTokensArrayMulti (f : Value → Option (List Tok)) (v : Value) :
    Option (List Tok) :=
  (elems? v).bind fun xs =>
    (xs.mapM f).map fun ts => [Tok.group .bracket (commaTerminated ts)]

/-- `__get_tokens_array_impl` from `src/lib.rs`: depth 0 serializes each element of
the (innermost) container with `to_tok_stream`, comma-terminated, inside one bracket
group; positive depth delegates to the (missing, spec-modelled) `_multi` macro with
the serializer one dimension lower. -/
def getTokensArrayImpl : Nat → Value → Option (List Tok)
  | 0, v => (elems? v).map fun xs =>
      [Tok.group .bracket (commaTerminated (xs.map toToks))]
  | d + 1, v => getTokensArrayMulti (getTokensArrayImpl d) v

/-- Modelled from the spec: `__get_tokens_vector_fn_multi` is invoked by
`__get_tokens_vector_fn_impl` at positive depth but its definition is missing from
the repository. Per spec §4.1, a growable sequence additionally wraps the bracketed
literal in a sequence-construction call (`vec!`). -/
def getTokensVectorFnMulti (f : Value → Option (List Tok)) (v : Value) :
    Option (List Tok) :=
  (elems? v).bind fun xs =>
    (xs.mapM f).map fun ts =>
      [Tok.ident "vec", Tok.punct "!", Tok.group .bracket (commaTerminated ts)]

/-- `__get_tokens_vector_fn_impl` from `src/lib.rs`: depth 0 produces
`vec![…]` of the elements' `to_tok_stream`, comma-terminated; positive depth
delegates to the (missing, spec-modelled) `_multi` macro. -/
def getTokensVectorFnImpl : Nat → Value → Option (List Tok)
  | 0, v => (elems? v).map fun xs =>
      [Tok.ident "vec", Tok.punct "!",
        Tok.group .bracket (commaTerminated (xs.map toToks))]
  | d + 1, v => getTokensVectorFnMulti (getTokensVectorFnImpl d) v

/-- Spec-side formalisation of claim C1's failure condition, following the spec's
words: some container at nesting level strictly below the bound is empty
(level 0 is the outermost container; every sibling counts, not only the first). -/
def specHasEmptyContainerBelow : Nat → Value → Bool
  | 0, _ => false
  | d + 1, v =>
      match elems? v with
      | some xs => xs.isEmpty || xs.any (specHasEmptyContainerBelow d)
      | none => false

/-- The condition the code actually checks: along the first-element path, some
container at nesting level strictly below the bound is empty. -/
def emptyAlongFirstPathBelow : Nat → Value → Bool
  | 0, _ => false
  | d + 1, v =>
      match elems? v with
      | some [] => true
      | some (x :: _) => emptyAlongFirstPathBelow d x
      | none => false

/-!  The artifact naming and emission protocol (`src/lib.rs`). -/

/-- The environment supplied by the build orchestration: the `OUT_DIR` output
directory and the `CARGO_PKG_NAME` compilation-unit identity. -/
structure Env where
  outDir : String
  pkgName : String

/-- Artifact visibility. -/
inductive Visibility where
  | priv
  | pub
deriving DecidableEq, Repr

/-- `__path_from_id` from `src/lib.rs`: the deterministic artifact path
`OUT_DIR/rustifact_PKG_ID.rs` (private) or `OUT_DIR/rustifact__pub__PKG_ID.rs`
(public). -/
def pathFromId (env : Env) (id : String) : Visibility → String
  | .priv => env.outDir ++ "/rustifact_" ++ env.pkgName ++ "_" ++ id ++ ".rs"
  | .pub => env.outDir ++ "/rustifact__pub__" ++ env.pkgName ++ "_" ++ id ++ ".rs"

/-- The filesystem artifact store: path to file content. -/
def FS : Type := String → Option String

/-- Whole-file overwrite (`std::fs::write`). -/
def fsWrite (p c : String) (fs : FS) : FS :=
  fun q => if q = p then some c else fs q

/-- The empty filesystem. -/
def fsEmpty : FS := fun _ => none

/-- Abstraction of the external `syn` / `prettyplease` crates:
`parseFmt` is `syn::parse_file` composed with `prettyplease::unparse`
(`.ok` carries the pretty-printed text, `.error` the parser's message);
`parseExpr` is `syn::parse_str::<syn::Expr>` and `parseType` is
`syn::parse_str::<syn::Type>`, each returning the parsed fragment's tokens. -/
structure Syn where
  parseFmt : String → Except String String
  parseExpr : String → Option (List Tok)
  parseType : String → Option (List Tok)

/-- Outcome of an emission step: normal completion, or a generation-aborting
panic, each carrying the filesystem state reached. -/
inductive EmitResult where
  | ok (fs : FS)
  | panicked (msg : String) (fs : FS)

/-- The parse-failure panic text of `__write_tokens_with_internal`. The first
placeholder is filled by `stringify!(id_name)` in the source — the literal string
"id_name", not the invoked symbol (the `$` is missing) — so the message is the same
for every symbol; the source's wording (including its typo) is kept verbatim. -/
def parseFailMsg (e : String) (path : String) : String :=
  "Failed to pretty-print id_name due to parse error: \x27" ++ e ++
    "\x27\nThis _probably_ indicates in issue with a ToTokenStream implementation. Unformatted output has\nbeen written to " ++
    path

/-- `__write_tokens_with_internal` from `src/lib.rs`: parse the composed text with
the full grammar parser; on success write the pretty-printed form to the artifact
path; on failure write the unformatted, unvalidated text to the same path and then
panic with `parseFailMsg`. -/
def writeTokensWithInternal (P : Syn) (env : Env) (id : String) (vis : Visibility)
    (text : String) (fs : FS) : EmitResult :=
  let path := pathFromId env id vis
  match P.parseFmt text with
  | .ok formatted => .ok (fsWrite path formatted fs)
  | .error e => .panicked (parseFailMsg e path) (fsWrite path text fs)

/-- `__write_tokens_with_internal_raw` from `src/lib.rs`: write the raw token text
to the private artifact path, with no parsing, validation or formatting. -/
def writeTokensWithInternalRaw (env : Env) (id : String) (text : String)
    (fs : FS) : FS :=
  fsWrite (pathFromId env id .priv) text fs

/-- `allow_export_error` from `src/lib.rs` (the `concat!` joins the three pieces
with no separator, exactly as in the source). -/
def allowExportError (id : String) : String :=
  "Couldn\x27t find symbol " ++ id ++
    " to setup export.Ensure you call write_static (or another write_... function)for "
    ++ id ++ " before allow_export,"

/-- `allow_export!` from `src/lib.rs`: read back the raw text of the already-emitted
private artifact; if present, re-emit it under the public path prefixed with `pub `
(through the validating writer); if absent, panic with `allowExportError`. -/
def allowExport (P : Syn) (env : Env) (id : String) (fs : FS) : EmitResult :=
  match fs (pathFromId env id .priv) with
  | some s => writeTokensWithInternal P env id .pub ("pub " ++ s) fs
  | none => .panicked (allowExportError id) fs

/-!  Declaration composition, one definition per `quote!` shape of `src/lib.rs`. -/

/-- The binding shape of `__write_with_internal`:
`$const_static $id_name: #arr_type = #tokens_data;`. -/
def bindingDeclToks (cs id : String) (tyT dataToks : List Tok) : List Tok :=
  [Tok.ident cs, Tok.ident id, Tok.punct ":"] ++ tyT ++ [Tok.punct "="] ++
    dataToks ++ [Tok.punct ";"]

/-- The function shape of `__write_fn_with_internal`:
`fn $id_name() -> #vec_type \x7b #tokens_data \x7d`. -/
def fnDeclToks (id : String) (tyT dataToks : List Tok) : List Tok :=
  [Tok.ident "fn", Tok.ident id, Tok.group .paren [], Tok.punct "->"] ++ tyT ++
    [Tok.group .brace dataToks]

/-- The group shape of `__write_internal`: one (optionally `pub`) binding per
(identifier, value) pair, concatenated. -/
def groupDeclToks (cs : String) (isPub : Bool) (tyT : List Tok)
    (idsData : List (String × Value)) : List Tok :=
  (idsData.map fun p =>
    (if isPub then [Tok.ident "pub"] else []) ++
      bindingDeclToks cs p.1 tyT (toToks p.2)).flatten

/-- The group shape of `__write_internal_fns`: one (optionally `pub`) getter
function per (identifier, value) pair, concatenated. -/
def fnsDeclToks (isPub : Bool) (tyT : List Tok)
    (idsData : List (String × Value)) : List Tok :=
  (idsData.map fun p =>
    (if isPub then [Tok.ident "pub"] else []) ++
      fnDeclToks p.1 tyT (toToks p.2)).flatten

/-- One struct field `pub? #id: #t,` as composed by the struct writers. -/
def structFieldToks (isPub : Bool) (id : String) (tyT : List Tok) : List Tok :=
  (if isPub then [Tok.ident "pub"] else []) ++
    [Tok.ident id, Tok.punct ":"] ++ tyT ++ [Tok.punct ","]

/-- The struct shape `pub? struct $id_struct \x7b #fields \x7d`. -/
def structDeclToks (isPub : Bool) (idStruct : String) (fields : List Tok) :
    List Tok :=
  (if isPub then [Tok.ident "pub"] else []) ++
    [Tok.ident "struct", Tok.ident idStruct, Tok.group .brace fields]

/-- The struct-initializer shape of `__write_internal_struct_uniform_init`:
`$id_struct \x7b #toks \x7d` with one `#id: #exp_toks,` per pair. -/
def initDeclToks (idStruct : String) (idsExps : List (String × Value)) : List Tok :=
  [Tok.ident idStruct,
    Tok.group .brace
      ((idsExps.map fun p =>
        [Tok.ident p.1, Tok.punct ":"] ++ toToks p.2 ++ [Tok.punct ","]).flatten)]

/-!  The writers of `src/lib.rs`, each ending in the validating writer except the
struct-initializer writer, which uses the raw writer. -/

/-- `__write_with_internal`: compose a binding declaration and emit it through the
validating writer under the private path. -/
def writeWithInternal (P : Syn) (env : Env) (cs id : String)
    (tyT dataToks : List Tok) (fs : FS) : EmitResult :=
  writeTokensWithInternal P env id .priv
    (renderToks (bindingDeclToks cs id tyT dataToks)) fs

/-- `__write_fn_with_internal`: compose a getter-function declaration and emit it
through the validating writer under the private path. -/
def writeFnWithInternal (P : Syn) (env : Env) (id : String)
    (tyT dataToks : List Tok) (fs : FS) : EmitResult :=
  writeTokensWithInternal P env id .priv
    (renderToks (fnDeclToks id tyT dataToks)) fs

/-- `write_static!`: a `static` binding of the serialized value. -/
def writeStatic (P : Syn) (env : Env) (id : String) (tyT : List Tok) (v : Value)
    (fs : FS) : EmitResult :=
  writeWithInternal P env "static" id tyT (toToks v) fs

/-- `write_const!`: a `const` binding of the serialized value. -/
def writeConst (P : Syn) (env : Env) (id : String) (tyT : List Tok) (v : Value)
    (fs : FS) : EmitResult :=
  writeWithInternal P env "const" id tyT (toToks v) fs

/-- `write_fn!`: a getter function returning the serialized value. -/
def writeFnDecl (P : Syn) (env : Env) (id : String) (tyT : List Tok) (v : Value)
    (fs : FS) : EmitResult :=
  writeFnWithInternal P env id tyT (toToks v) fs

/-- `__write_internal` (behind `write_statics!` / `write_consts!`): a group of
bindings emitted through the validating writer under the group's private path. -/
def writeInternalGroup (P : Syn) (env : Env) (cs idGroup : String)
    (tyT : List Tok) (isPub : Bool) (idsData : List (String × Value)) (fs : FS) :
    EmitResult :=
  writeTokensWithInternal P env idGroup .priv
    (renderToks (groupDeclToks cs isPub tyT idsData)) fs

/-- `__write_internal_fns` (behind `write_fns!`): a group of getter functions
emitted through the validating writer. -/
def writeInternalFns (P : Syn) (env : Env) (idGroup : String) (tyT : List Tok)
    (isPub : Bool) (idsData : List (String × Value)) (fs : FS) : EmitResult :=
  writeTokensWithInternal P env idGroup .priv
    (renderToks (fnsDeclToks isPub tyT idsData)) fs

/-- The field loop of `__write_internal_struct`: each field type string is parsed
with `parse_str::<Type>`; the first failure panics with
`Couldn't parse the type '…'`. -/
def buildStructFields (P : Syn) :
    List (Bool × String × String) → Except String (List Tok)
  | [] => .ok []
  | (isPub, idStr, tyStr) :: rest =>
      match P.parseType tyStr with
      | some t =>
          (buildStructFields P rest).map fun ts => structFieldToks isPub idStr t ++ ts
      | none =>
          .error ("Couldn\x27t parse the type \x27" ++ tyStr ++ "\x27")

/-- `__write_internal_struct` (behind `write_struct!`): parse every field type,
compose the struct declaration, and emit it through the validating writer. -/
def writeInternalStruct (P : Syn) (env : Env) (idStruct : String) (isPub : Bool)
    (visIdsTypes : List (Bool × String × String)) (fs : FS) : EmitResult :=
  match buildStructFields P visIdsTypes with
  | .error m => .panicked m fs
  | .ok fields =>
      writeTokensWithInternal P env idStruct .priv
        (renderToks (structDeclToks isPub idStruct fields)) fs

/-- `__write_internal_struct_uniform` (behind `write_struct_uniform!`): all fields
share the given type; emitted through the validating writer. -/
def writeInternalStructUniform (P : Syn) (env : Env) (idStruct : String)
    (tyT : List Tok) (isPub : Bool) (visIds : List (Bool × String)) (fs : FS) :
    EmitResult :=
  writeTokensWithInternal P env idStruct .priv
    (renderToks (structDeclToks isPub idStruct
      ((visIds.map fun p => structFieldToks p.1 p.2 tyT).flatten))) fs

/-- `__write_internal_struct_uniform_init` (behind `write_struct_uniform_init!`):
compose the bare struct-initializer expression and write it with the RAW writer
(no parse, no validation, no formatting) under the `STRUCT_VALS` private path. -/
def writeInternalStructUniformInit (env : Env) (idStruct idVals : String)
    (idsExps : List (String × Value)) (fs : FS) : FS :=
  writeTokensWithInternalRaw env (idStruct ++ "_" ++ idVals)
    (renderToks (initDeclToks idStruct idsExps)) fs

/-!  The four public array/vector entry points generated by `build.rs`
(`write_static_array`, `write_const_array`, `write_array_fn`, `write_vector_fn`).
Each generated macro has a base entry without a dimension that redirects to the
same macro with `: 1`, and one entry per literal dimension `1..=16` expanding to
`__write_with!(D, …) = __write_with_impl!(D, …)` with that macro's parameter
triple (tokens macro, type macro, internal writer). -/

/-- Which of the four generated entry points is invoked. -/
inductive ArrayWriteKind where
  | staticArr
  | constArr
  | arrayFn
  | vectorFn
deriving DecidableEq, Repr

/-- The "too shallow" panic text of `__assert_dim_impl`. -/
def tooShallowMsg : String := "Actual array (or vec) is too shallow"

/-- `__write_with_impl` specialised to each generated entry point: assert the
shape first (panicking while the filesystem is untouched), then build the data
tokens and the type signature, then emit through that entry point's internal
writer. `none` models invocations that do not compile (dimension outside `1..=16`,
or a sample shallower than the macros' indexing). -/
def writeArrayEntryAt (P : Syn) (env : Env) (k : ArrayWriteKind) (id : String)
    (t : Ty) (D : Nat) (data : Value) (fs : FS) : Option EmitResult :=
  if 1 ≤ D ∧ D ≤ 16 then
    if assertDimImpl (D - 1) data = false then
      some (.panicked tooShallowMsg fs)
    else
      match k with
      | .staticArr =>
          (getTokensArrayImpl (D - 1) data).bind fun td =>
            (arrayTypeImpl t (D - 1) data).map fun ty =>
              writeWithInternal P env "static" id (tyToks ty) td fs
      | .constArr =>
          (getTokensArrayImpl (D - 1) data).bind fun td =>
            (arrayTypeImpl t (D - 1) data).map fun ty =>
              writeWithInternal P env "const" id (tyToks ty) td fs
      | .arrayFn =>
          (getTokensArrayImpl (D - 1) data).bind fun td =>
            (arrayTypeImpl t (D - 1) data).map fun ty =>
              writeFnWithInternal P env id (tyToks ty) td fs
      | .vectorFn =>
          (getTokensVectorFnImpl (D - 1) data).map fun td =>
            writeFnWithInternal P env id (tyToks (vectorTypeImpl t (D - 1))) td fs
  else none

/-- A generated public entry point, invoked with an explicit dimension
(`$t : DIM`) or without one (the base macro entry, which expands to `: 1`). -/
def writeArrayEntry (P : Syn) (env : Env) (k : ArrayWriteKind) (id : String)
    (t : Ty) (dim? : Option Nat) (data : Value) (fs : FS) : Option EmitResult :=
  match dim? with
  | none => writeArrayEntryAt P env k id t 1 data fs
  | some d => writeArrayEntryAt P env k id t d data fs

/-!  The perfect-hash map builders (`src/phf/map.rs`, `src/phf/ordered_map.rs`).
`phf_codegen` is an external crate; observable to this repository are the entry
list it is handed (key plus value string) and its `build()` output text, the
latter abstracted as a function parameter `alg`. -/

/-- `MapBuilder` state: the (key, serialized value text) pairs handed to
`phf_codegen::Map::entry`, in call order. -/
structure MapBuilder (K : Type) where
  entries : List (K × String)

/-- `MapBuilder::new`. -/
def MapBuilder.new (K : Type) : MapBuilder K := ⟨[]⟩

/-- `MapBuilder::entry`: the value is serialized with
`value.to_tok_stream().to_string()` at entry time, before `phf_codegen` sees it. -/
def MapBuilder.entry {K : Type} (b : MapBuilder K) (k : K) (v : Value) :
    MapBuilder K :=
  ⟨b.entries ++ [(k, renderToks (toToks v))]⟩

/-- The `init_raw` wrapping `rustifact::Map::init_raw(#t)` of the map builder's
`ToTokenStream` impl. -/
def mapInitRawWrap (t : List Tok) : List Tok :=
  [Tok.ident "rustifact", Tok.punct "::", Tok.ident "Map", Tok.punct "::",
    Tok.ident "init_raw", Tok.group .paren t]

/-- The `init_raw` wrapping `rustifact::OrderedMap::init_raw(#t)` of the ordered
map builder's `ToTokenStream` impl. -/
def orderedMapInitRawWrap (t : List Tok) : List Tok :=
  [Tok.ident "rustifact", Tok.punct "::", Tok.ident "OrderedMap", Tok.punct "::",
    Tok.ident "init_raw", Tok.group .paren t]

/-- `ToTokenStream for MapBuilder`: `self.0.build().to_string()` (the external
algorithm `alg` applied to the accumulated entries) is re-parsed as an expression
and wrapped in `rustifact::Map::init_raw(…)`; an unparseable table literal panics
(`none`). -/
def mapBuilderToToks {K : Type} (alg : List (K × String) → String) (P : Syn)
    (b : MapBuilder K) : Option (List Tok) :=
  (P.parseExpr (alg b.entries)).map mapInitRawWrap

/-- `OrderedMapBuilder` state: as `MapBuilder`, with insertion order preserved by
`phf_codegen::OrderedMap`. -/
structure OrderedMapBuilder (K : Type) where
  entries : List (K × String)

/-- `OrderedMapBuilder::entry`: the value is serialized at entry time, exactly as
in `MapBuilder::entry`. -/
def OrderedMapBuilder.entry {K : Type} (b : OrderedMapBuilder K) (k : K)
    (v : Value) : OrderedMapBuilder K :=
  ⟨b.entries ++ [(k, renderToks (toToks v))]⟩

/-- `ToTokenStream for OrderedMapBuilder`: the algorithm's table literal is parsed
and wrapped in `rustifact::OrderedMap::init_raw(…)`. -/
def orderedMapBuilderToToks {K : Type} (alg : List (K × String) → String)
    (P : Syn) (b : OrderedMapBuilder K) : Option (List Tok) :=
  (P.parseExpr (alg b.entries)).map orderedMapInitRawWrap

/-!  Concrete fixtures used by witnesses and counterexamples. -/

/-- A concrete environment. -/
def env0 : Env := ⟨"out", "pkg"⟩

/-- A parser abstraction that accepts every input unchanged. -/
def acceptSyn : Syn :=
  ⟨fun s => .ok s, fun s => some [Tok.lit s], fun s => some [Tok.ident s]⟩

/-- A parser abstraction that rejects every input. -/
def rejectSyn : Syn :=
  ⟨fun _ => .error "synthetic reject", fun _ => none, fun _ => none⟩

/-- The C1 counterexample sample `[[1], []]`: its second (non-first-path) inner
container is empty. -/
def c1sample : Value :=
  Value.array [Value.array [Value.intV 1 "i32"], Value.array []]

/-- The spec's scenario-2 sample `[[0, 1], [1, 2]]` of `u32`. -/
def gridSample : Value :=
  Value.array
    [Value.array [Value.intV 0 "u32", Value.intV 1 "u32"],
     Value.array [Value.intV 1 "u32", Value.intV 2 "u32"]]

/-- A concrete 3-tuple of slots for the tuple-serialization witness. -/
def c5slots : List Value :=
  [Value.intV 1 "i32", Value.boolV true, Value.charV 'x']

/-- A filesystem already holding a private artifact for symbol `FOO`. -/
def c7fs : FS :=
  fsWrite (pathFromId env0 "FOO" .priv) "static FOO : u32 = 1u32 ;" fsEmpty

/-!  Helper lemmas shared by the claim theorems. -/

theorem toToksList_eq_map : ∀ vs : List Value, toToksList vs = vs.map toToks
  | [] => by simp [toToksList]
  | v :: vs => by simp [toToksList, toToksList_eq_map vs]

/-- No `ToTokenStream` rule emits a comma at the top level of its own stream:
every serialization is a literal, an identifier, or wraps its contents in a
delimited group (commas live inside the group). -/
theorem noTopComma : ∀ v : Value, Tok.punct "," ∉ toToks v
  | .intV _ _ => by simp [toToks]
  | .floatV _ _ => by simp [toToks]
  | .charV _ => by simp [toToks]
  | .strV _ => by simp [toToks]
  | .stringV _ => by simp [toToks]
  | .boolV _ => by simp [toToks]
  | .ref v => by
      rw [show toToks (Value.ref v) = toToks v from by simp [toToks]]
      exact noTopComma v
  | .mutRef v => by
      rw [show toToks (Value.mutRef v) = toToks v from by simp [toToks]]
      exact noTopComma v
  | .slice _ => by simp [toToks, toToksSlice]
  | .array _ => by simp [toToks, toToksSlice]
  | .vecV _ => by simp [toToks]
  | .optionV (some _) => by simp [toToks]
  | .optionV none => by simp [toToks]
  | .tuple _ => by simp [toToks]

/-- Overwriting a path with the same content twice equals doing it once. -/
theorem fsWrite_fsWrite (p c : String) (fs : FS) :
    fsWrite p c (fsWrite p c fs) = fsWrite p c fs := by
  funext q
  simp only [fsWrite]
  split <;> rfl

/-- Inversion of a successful validated write: the parser accepted the composed
text and the artifact holds the pretty-printed output. -/
theorem writeTokensWithInternal_ok_iff (P : Syn) (env : Env) (id : String)
    (vis : Visibility) (text : String) (fs fs1 : FS) :
    writeTokensWithInternal P env id vis text fs = .ok fs1 ↔
      ∃ f, P.parseFmt text = .ok f ∧ fs1 = fsWrite (pathFromId env id vis) f fs := by
  unfold writeTokensWithInternal
  cases h : P.parseFmt text with
  | ok f => simp [h, eq_comm]
  | error e => simp [h]

/-- The shape assertion's panic condition equals emptiness of a container along
the first-element path, strictly above the final recursion depth. -/
theorem assertDimImpl_eq_firstPath :
    ∀ (d : Nat) (v : Value),
      assertDimImpl d v = false ↔ emptyAlongFirstPathBelow d v = true
  | 0, v => by simp [assertDimImpl, emptyAlongFirstPathBelow]
  | d + 1, v => by
      rcases h : elems? v with _ | xs
      · simp [assertDimImpl, emptyAlongFirstPathBelow, h]
      · rcases xs with _ | ⟨x, rest⟩
        · simp [assertDimImpl, emptyAlongFirstPathBelow, h]
        · simp [assertDimImpl, emptyAlongFirstPathBelow, h,
            assertDimImpl_eq_firstPath d x]

/-- Each result of `__array_type_impl` wraps the element type in exactly
`depth + 1` fixed-size array levels. -/
theorem arrayTypeImpl_depth (t : Ty) :
    ∀ (d : Nat) (v : Value) (res : Ty),
      arrayTypeImpl t d v = some res → arrDepth res = d + 1 + arrDepth t
  | 0, v, res => by
      intro h
      rcases he : elems? v with _ | xs
      · simp [arrayTypeImpl, lenOf?, he] at h
      · simp only [arrayTypeImpl, lenOf?, he, Option.map_some',
          Option.some_inj] at h
        subst h
        simp [arrDepth]
        omega
  | d + 1, v, res => by
      intro h
      rcases he : elems? v with _ | ⟨_ | ⟨x, rest⟩⟩
      · simp [arrayTypeImpl, he] at h
      · simp [arrayTypeImpl, he] at h
      · simp only [arrayTypeImpl, he] at h
        rcases Option.map_eq_some'.mp h with ⟨inner, hinner, rfl⟩
        have hd := arrayTypeImpl_depth t d x inner hinner
        simp only [arrDepth, hd]
        omega

/-!  Claim theorems. -/

/-- Claim C1, counterexample: the claim says the shape assertion fails iff some
container at nesting level `< D` is empty. On `[[1], []]` with `D = 2` an empty
container sits at level `1 < 2`, yet the assertion passes (only the first-element
path is descended); likewise a dimension-1 empty sample has an empty container at
level `0 < 1`, yet the assertion passes (the final depth performs no check). -/
theorem rustifact_c1_counterexample :
    (specHasEmptyContainerBelow 2 c1sample = true ∧
      assertDim 2 c1sample = some true) ∧
    (specHasEmptyContainerBelow 1 (Value.array []) = true ∧
      assertDim 1 (Value.array []) = some true) := by
  refine ⟨⟨?_, ?_⟩, ⟨?_, ?_⟩⟩ <;> decide

/-- Claim C1 (amended): for every requested dimension `1 ≤ D ≤ 16`, the shape
assertion fails with the "too shallow" panic iff some container reached by
repeatedly taking first elements, at nesting level strictly less than `D - 1`,
has length 0; sibling containers off the first-element path and the containers at
level `D - 1` are never checked. -/
theorem rustifact_c1_assert_shape (D : Nat) (v : Value) (h1 : 1 ≤ D)
    (h16 : D ≤ 16) :
    assertDim D v = some false ↔ emptyAlongFirstPathBelow (D - 1) v = true := by
  rw [assertDim, if_pos ⟨h1, h16⟩]
  simp [assertDimImpl_eq_firstPath]

/-- Claim C1, witness: dimension 2 with an empty outermost sample (the spec's
scenario 4) does fail the assertion. -/
theorem rustifact_c1_assert_shape_witness :
    (1 ≤ 2 ∧ 2 ≤ 16) ∧ assertDim 2 (Value.array []) = some false :=
  ⟨⟨by decide, by decide⟩,
    (rustifact_c1_assert_shape 2 (Value.array []) (by decide) (by decide)).mpr
      (by decide)⟩

/-- Claim C2, counterexample: the claim says the struct-initializer artifact of
`write_struct_uniform_init` is parse-validated before being written. With a parser
that rejects every text, a binding emission panics, but the struct-initializer
emission completes normally and its artifact holds exactly the raw composed text —
text the parser rejects — so no parse validation happens on that path. -/
theorem rustifact_c2_counterexample :
    writeInternalStructUniformInit env0 "Foo" "Init" [("a", Value.boolV true)]
        fsEmpty (pathFromId env0 "Foo_Init" .priv) =
      some (renderToks (initDeclToks "Foo" [("a", Value.boolV true)])) ∧
    rejectSyn.parseFmt (renderToks (initDeclToks "Foo" [("a", Value.boolV true)])) =
      .error "synthetic reject" ∧
    writeStatic rejectSyn env0 "A" [Tok.ident "u32"] (Value.intV 1 "u32") fsEmpty =
      .panicked (parseFailMsg "synthetic reject" (pathFromId env0 "A" .priv))
        (fsWrite (pathFromId env0 "A" .priv)
          (renderToks (bindingDeclToks "static" "A" [Tok.ident "u32"]
            (toToks (Value.intV 1 "u32")))) fsEmpty) := by
  refine ⟨?_, rfl, rfl⟩
  simp [writeInternalStructUniformInit, writeTokensWithInternalRaw, fsWrite,
    pathFromId]

/-- Claim C2 (amended): binding, function, group, and struct type-definition
declarations are validated by the grammar-aware parser before the artifact write —
their emission completes normally only when the parser accepts the composed text —
but the struct-initializer artifact of `write_struct_uniform_init` is written raw,
with no parse validation at all. -/
theorem rustifact_c2_parse_validation (P : Syn) (env : Env) :
    (∀ cs id tyT dataToks fs fs1,
      writeWithInternal P env cs id tyT dataToks fs = .ok fs1 →
        ∃ f, P.parseFmt (renderToks (bindingDeclToks cs id tyT dataToks)) = .ok f) ∧
    (∀ id tyT dataToks fs fs1,
      writeFnWithInternal P env id tyT dataToks fs = .ok fs1 →
        ∃ f, P.parseFmt (renderToks (fnDeclToks id tyT dataToks)) = .ok f) ∧
    (∀ cs idGroup tyT isPub idsData fs fs1,
      writeInternalGroup P env cs idGroup tyT isPub idsData fs = .ok fs1 →
        ∃ f, P.parseFmt (renderToks (groupDeclToks cs isPub tyT idsData)) = .ok f) ∧
    (∀ idStruct isPub vit fs fs1,
      writeInternalStruct P env idStruct isPub vit fs = .ok fs1 →
        ∃ fields f, buildStructFields P vit = .ok fields ∧
          P.parseFmt (renderToks (structDeclToks isPub idStruct fields)) = .ok f) ∧
    (∀ idStruct tyT isPub visIds fs fs1,
      writeInternalStructUniform P env idStruct tyT isPub visIds fs = .ok fs1 →
        ∃ f, P.parseFmt (renderToks (structDeclToks isPub idStruct
          ((visIds.map fun p => structFieldToks p.1 p.2 tyT).flatten))) = .ok f) ∧
    (∀ idStruct idVals idsExps fs,
      writeInternalStructUniformInit env idStruct idVals idsExps fs =
        fsWrite (pathFromId env (idStruct ++ "_" ++ idVals) .priv)
          (renderToks (initDeclToks idStruct idsExps)) fs) := by
  refine ⟨?_, ?_, ?_, ?_, ?_, ?_⟩
  · intro cs id tyT dataToks fs fs1 h
    rcases (writeTokensWithInternal_ok_iff P env id .priv _ fs fs1).mp h with
      ⟨f, hf, _⟩
    exact ⟨f, hf⟩
  · intro id tyT dataToks fs fs1 h
    rcases (writeTokensWithInternal_ok_iff P env id .priv _ fs fs1).mp h with
      ⟨f, hf, _⟩
    exact ⟨f, hf⟩
  · intro cs idGroup tyT isPub idsData fs fs1 h
    rcases (writeTokensWithInternal_ok_iff P env idGroup .priv _ fs fs1).mp h with
      ⟨f, hf, _⟩
    exact ⟨f, hf⟩
  · intro idStruct isPub vit fs fs1 h
    unfold writeInternalStruct at h
    rcases hb : buildStructFields P vit with m | fields
    · rw [hb] at h
      exact absurd h (by simp)
    · rw [hb] at h
      rcases (writeTokensWithInternal_ok_iff P env idStruct .priv _ fs fs1).mp h
        with ⟨f, hf, _⟩
      exact ⟨fields, f, rfl, hf⟩
  · intro idStruct tyT isPub visIds fs fs1 h
    rcases (writeTokensWithInternal_ok_iff P env idStruct .priv _ fs fs1).mp h with
      ⟨f, hf, _⟩
    exact ⟨f, hf⟩
  · intro idStruct idVals idsExps fs
    rfl

/-- Claim C2, witness: with the accepting parser, a binding emission completes
and the parser did accept its composed text. -/
theorem rustifact_c2_parse_validation_witness :
    ∃ f, acceptSyn.parseFmt (renderToks (bindingDeclToks "static" "A"
      [Tok.ident "u32"] [Tok.lit "1u32"])) = .ok f :=
  (rustifact_c2_parse_validation acceptSyn env0).1 "static" "A" [Tok.ident "u32"]
    [Tok.lit "1u32"] fsEmpty _ rfl

/-- Claim C3: on a parse failure the emitter writes the unformatted, unvalidated
text to the artifact path and then panics; the panic message does include the
parser's error and the output path, but its symbol-name slot holds the literal
string "id_name" for every symbol (the source passes `stringify!(id_name)`,
not `stringify!($id_name)`), so the message never names the offending symbol. -/
theorem rustifact_c3_parse_failure_diagnostic :
    writeStatic rejectSyn env0 "FOO" [Tok.ident "u32"] (Value.boolV true) fsEmpty =
      .panicked (parseFailMsg "synthetic reject" (pathFromId env0 "FOO" .priv))
        (fsWrite (pathFromId env0 "FOO" .priv)
          (renderToks (bindingDeclToks "static" "FOO" [Tok.ident "u32"]
            (toToks (Value.boolV true)))) fsEmpty) ∧
    (∀ e p, ∃ a b, parseFailMsg e p = a ++ e ++ b) ∧
    (∀ e p, ∃ a, parseFailMsg e p = a ++ p) ∧
    (∀ e p, ∃ b, parseFailMsg e p =
      "Failed to pretty-print id_name due to parse error: \x27" ++ b) := by
  refine ⟨rfl, ?_, ?_, ?_⟩
  · intro e p
    exact ⟨"Failed to pretty-print id_name due to parse error: \x27",
      "\x27\nThis _probably_ indicates in issue with a ToTokenStream implementation. Unformatted output has\nbeen written to "
        ++ p, by simp [parseFailMsg, String.append_assoc]⟩
  · intro e p
    exact ⟨"Failed to pretty-print id_name due to parse error: \x27" ++ e ++
      "\x27\nThis _probably_ indicates in issue with a ToTokenStream implementation. Unformatted output has\nbeen written to ",
      by simp [parseFailMsg, String.append_assoc]⟩
  · intro e p
    exact ⟨e ++
      "\x27\nThis _probably_ indicates in issue with a ToTokenStream implementation. Unformatted output has\nbeen written to "
        ++ p, by simp [parseFailMsg, String.append_assoc]⟩

/-- Claim C4: for every declared dimension `1 ≤ D ≤ 16`, `__array_type` wraps the
element type once per dimension with the lengths taken along the first-element
path: dimension 1 yields `[t; len(sample)]`, and dimension `D ≥ 2` yields
`[inner; len(sample)]` with `inner` the dimension-`D-1` signature of the sample's
first element; every derived signature wraps the element type exactly `D` times. -/
theorem rustifact_c4_array_type (t : Ty) (D : Nat) (h1 : 1 ≤ D) (h16 : D ≤ 16) :
    (∀ vs : List Value,
      arrayType t 1 (Value.array vs) = some (Ty.arr t vs.length)) ∧
    (2 ≤ D → ∀ (x : Value) (rest : List Value),
      arrayType t D (Value.array (x :: rest)) =
        (arrayType t (D - 1) x).map fun inner => Ty.arr inner (rest.length + 1)) ∧
    (∀ (v : Value) (res : Ty), arrayType t D v = some res →
      arrDepth res = D + arrDepth t) := by
  refine ⟨?_, ?_, ?_⟩
  · intro vs
    simp [arrayType, arrayTypeImpl, lenOf?, elems?]
  · intro hD x rest
    obtain ⟨d, rfl⟩ : ∃ d, D = d + 2 := ⟨D - 2, by omega⟩
    have g1 : 1 ≤ d + 2 ∧ d + 2 ≤ 16 := by omega
    have g2 : 1 ≤ d + 2 - 1 ∧ d + 2 - 1 ≤ 16 := by omega
    rw [arrayType, if_pos g1, arrayType, if_pos g2]
    simp [arrayTypeImpl, elems?]
  · intro v res h
    rw [arrayType, if_pos ⟨h1, h16⟩] at h
    have := arrayTypeImpl_depth t (D - 1) v res h
    omega

/-- Claim C4, witness: dimension 2 on the sample `[[0, 1], [1, 2]]` of `u32`
yields `[[u32; 2]; 2]`, and both the recursive characterisation and the wrap-count
of the theorem hold there. -/
theorem rustifact_c4_array_type_witness :
    (1 ≤ 2 ∧ 2 ≤ 16 ∧ 2 ≤ 2) ∧
    arrayType (Ty.base "u32") 2 gridSample =
      some (Ty.arr (Ty.arr (Ty.base "u32") 2) 2) ∧
    arrDepth (Ty.arr (Ty.arr (Ty.base "u32") 2) 2) = 2 + arrDepth (Ty.base "u32") :=
  ⟨⟨by decide, by decide, by decide⟩, by decide,
    (rustifact_c4_array_type (Ty.base "u32") 2 (by decide) (by decide)).2.2
      gridSample (Ty.arr (Ty.arr (Ty.base "u32") 2) 2) (by decide)⟩

/-- Claim C5: tuple serialization is a parenthesized, comma-separated list of the
slot serializations in positional order; splitting the parenthesized stream back
on top-level commas recovers exactly the slot serializations in order (no rule
emits a top-level comma); and tuple impls exist exactly for arities 2 through 12. -/
theorem rustifact_c5_tuple_serialization (vs : List Value) (h2 : 2 ≤ vs.length)
    (h12 : vs.length ≤ 12) (hinst : hasInstanceList vs = true) :
    hasInstance (Value.tuple vs) = true ∧
    (∀ ws : List Value, hasInstance (Value.tuple ws) = true →
      2 ≤ ws.length ∧ ws.length ≤ 12) ∧
    toToks (Value.tuple vs) = [Tok.group .paren (commaSep (vs.map toToks))] ∧
    (commaSep (vs.map toToks)).splitOn (Tok.punct ",") = vs.map toToks := by
  refine ⟨?_, ?_, ?_, ?_⟩
  · simp [hasInstance, h2, h12, hinst]
  · intro ws hw
    simp only [hasInstance, Bool.and_eq_true, decide_eq_true_eq] at hw
    exact ⟨hw.1.1, hw.1.2⟩
  · simp [toToks, toToksList_eq_map]
  · rw [commaSep]
    apply List.splitOn_intercalate
    · intro l hl
      rcases List.mem_map.mp hl with ⟨v, _, rfl⟩
      exact noTopComma v
    · intro hnil
      rw [List.map_eq_nil_iff] at hnil
      subst hnil
      simp at h2

/-- Claim C5, witness: a concrete 3-tuple round-trips slot-wise. -/
theorem rustifact_c5_tuple_serialization_witness :
    (2 ≤ c5slots.length ∧ c5slots.length ≤ 12 ∧ hasInstanceList c5slots = true) ∧
    toToks (Value.tuple c5slots) =
      [Tok.group .paren (commaSep (c5slots.map toToks))] ∧
    (commaSep (c5slots.map toToks)).splitOn (Tok.punct ",") = c5slots.map toToks := by
  have h := rustifact_c5_tuple_serialization c5slots (by decide) (by decide)
    (by simp [c5slots, hasInstanceList, hasInstance])
  exact ⟨⟨by decide, by decide,
    by simp [c5slots, hasInstanceList, hasInstance]⟩, h.2.2.1, h.2.2.2⟩

/-- Claim C6: the artifact path is a function of (unit identity, symbol name,
visibility); for the same symbol the private and public paths always differ; and
re-running a successful emission with identical inputs rewrites byte-identical
content to the same path, leaving the filesystem unchanged. -/
theorem rustifact_c6_artifact_paths :
    (∀ (env : Env) (id : String),
      pathFromId env id .priv ≠ pathFromId env id .pub) ∧
    (∀ (P : Syn) (env : Env) (id : String) (vis : Visibility) (text : String)
      (fs fs1 : FS),
      writeTokensWithInternal P env id vis text fs = .ok fs1 →
      writeTokensWithInternal P env id vis text fs1 = .ok fs1) := by
  constructor
  · intro env id h
    have hl := congrArg String.length h
    simp only [pathFromId, String.length_append] at hl
    have e1 : "/rustifact_".length = 11 := rfl
    have e2 : "/rustifact__pub__".length = 17 := rfl
    have e3 : "_".length = 1 := rfl
    have e4 : ".rs".length = 3 := rfl
    rw [e1, e2, e3, e4] at hl
    omega
  · intro P env id vis text fs fs1 h
    rcases (writeTokensWithInternal_ok_iff P env id vis text fs fs1).mp h with
      ⟨f, hf, rfl⟩
    exact (writeTokensWithInternal_ok_iff P env id vis text _ _).mpr
      ⟨f, hf, (fsWrite_fsWrite (pathFromId env id vis) f fs).symm⟩

/-- Claim C6, witness: a concrete successful emission re-run on its own output
filesystem reproduces it exactly. -/
theorem rustifact_c6_artifact_paths_witness :
    writeTokensWithInternal acceptSyn env0 "A" .priv "x"
        (fsWrite (pathFromId env0 "A" .priv) "x" fsEmpty) =
      .ok (fsWrite (pathFromId env0 "A" .priv) "x" fsEmpty) :=
  rustifact_c6_artifact_paths.2 acceptSyn env0 "A" .priv "x" fsEmpty _ rfl

/-- Claim C7: `allow_export` re-emits the raw text of the already-emitted private
artifact, prefixed with `pub `, under the public path; when the private artifact
is absent it panics with a diagnostic that names the symbol, leaving the
filesystem — in particular any public artifact — untouched. -/
theorem rustifact_c7_allow_export (P : Syn) (env : Env) (id : String) (fs : FS) :
    (∀ s, fs (pathFromId env id .priv) = some s →
      allowExport P env id fs =
        writeTokensWithInternal P env id .pub ("pub " ++ s) fs) ∧
    (fs (pathFromId env id .priv) = none →
      allowExport P env id fs = .panicked (allowExportError id) fs) ∧
    (∃ a b, allowExportError id = a ++ id ++ b) := by
  refine ⟨?_, ?_, ?_⟩
  · intro s hs
    unfold allowExport
    rw [hs]
  · intro hn
    unfold allowExport
    rw [hn]
  · exact ⟨"Couldn\x27t find symbol ",
      " to setup export.Ensure you call write_static (or another write_... function)for "
        ++ id ++ " before allow_export,",
      by simp [allowExportError, String.append_assoc]⟩

/-- Claim C7, witness: with the private artifact present the re-emission happens;
with an empty filesystem the panic carries the symbol name and changes nothing. -/
theorem rustifact_c7_allow_export_witness :
    allowExport acceptSyn env0 "FOO" c7fs =
      writeTokensWithInternal acceptSyn env0 "FOO" .pub
        ("pub " ++ "static FOO : u32 = 1u32 ;") c7fs ∧
    allowExport acceptSyn env0 "FOO" fsEmpty =
      .panicked (allowExportError "FOO") fsEmpty :=
  ⟨(rustifact_c7_allow_export acceptSyn env0 "FOO" c7fs).1
      "static FOO : u32 = 1u32 ;" (by simp [c7fs, fsWrite]),
    (rustifact_c7_allow_export acceptSyn env0 "FOO" fsEmpty).2.1 rfl⟩

/-- Claim C8: each map-builder `entry` call serializes the value to its textual
expression at entry time, appending (key, serialized text) to the entries handed to
the external perfect-hash algorithm; and the builders' serialization wraps the
algorithm's parsed table literal in `Map::init_raw` / `OrderedMap::init_raw`. -/
theorem rustifact_c8_map_builder {K : Type} (alg : List (K × String) → String)
    (P : Syn) (b : MapBuilder K) (ob : OrderedMapBuilder K) (k : K) (v : Value) :
    (b.entry k v).entries = b.entries ++ [(k, renderToks (toToks v))] ∧
    (ob.entry k v).entries = ob.entries ++ [(k, renderToks (toToks v))] ∧
    (∀ t, P.parseExpr (alg b.entries) = some t →
      mapBuilderToToks alg P b = some (mapInitRawWrap t)) ∧
    (∀ t, P.parseExpr (alg ob.entries) = some t →
      orderedMapBuilderToToks alg P ob = some (orderedMapInitRawWrap t)) := by
  refine ⟨rfl, rfl, ?_, ?_⟩
  · intro t ht
    unfold mapBuilderToToks
    rw [ht]
    rfl
  · intro t ht
    unfold orderedMapBuilderToToks
    rw [ht]
    rfl

/-- Claim C8, witness: a concrete entry and a concrete build-time wrap. -/
theorem rustifact_c8_map_builder_witness :
    (MapBuilder.entry (⟨[]⟩ : MapBuilder Nat) 7 (Value.boolV true)).entries =
      [(7, renderToks (toToks (Value.boolV true)))] ∧
    mapBuilderToToks (fun _ : List (Nat × String) => "T") acceptSyn
      (⟨[]⟩ : MapBuilder Nat) = some (mapInitRawWrap [Tok.lit "T"]) := by
  obtain ⟨h1, _, h3, _⟩ := rustifact_c8_map_builder
    (fun _ : List (Nat × String) => "T") acceptSyn (⟨[]⟩ : MapBuilder Nat)
    (⟨[]⟩ : OrderedMapBuilder Nat) 7 (Value.boolV true)
  exact ⟨by simpa using h1, h3 [Tok.lit "T"] rfl⟩

/-- Claim C9: each of the four generated array/vector entry points invoked without
an explicit dimension behaves identically to the same entry point invoked with
dimension 1 (the generated base macro entry redirects to `: 1`). -/
theorem rustifact_c9_dimension_default (P : Syn) (env : Env) (k : ArrayWriteKind)
    (id : String) (t : Ty) (data : Value) (fs : FS) :
    writeArrayEntry P env k id t none data fs =
      writeArrayEntry P env k id t (some 1) data fs := rfl

/-- Claim C10: serialization is transparent to references — `&x` and `&mut x`
serialize to exactly the token stream of `x` — and a fixed-size array serializes
to exactly the same bracketed stream as the slice of the same elements (both
implementations share `to_toks_slice`). -/
theorem rustifact_c10_reference_transparency :
    (∀ v : Value, toToks (Value.ref v) = toToks v) ∧
    (∀ v : Value, toToks (Value.mutRef v) = toToks v) ∧
    (∀ vs : List Value, toToks (Value.array vs) = toToks (Value.slice vs)) := by
  refine ⟨?_, ?_, ?_⟩ <;> intro x <;> simp [toToks]

end Rustifact
